import Mathlib

/-!
Verification of the DESTRA serial peek/poke protocol (sfadiga/destra).

The embedding below is a shallow model of the two embedded-side
implementations in the repository:

- `src/arduino/sample/destra_protocol.ino` (the "sample" framer, which
  echoes every accepted byte back to the serial output and has no
  GET_PERF_LOG command), and
- `src/arduino/destra_protocol_test/sample.ino` (the instrumented "test"
  framer, which adds the GET_PERF_LOG command, the telemetry ring
  buffer, and a bound check in the WAIT_VALUE state).

Memory is modelled as a total function from 16-bit addresses to bytes
(`Mem`); bytes are plain naturals. The request executors
(`processPeekRequest`, `processPokeRequest`) are textually identical in
both .ino files and are embedded once. Clock-derived instrumentation
values (micros(), frame counters) are abstracted as parameters
(`TestGlobals`), since the claims under study only concern
`commandSequence` and the ring-buffer cursor.
-/

/-- Serial command byte for PEEK (CMD_PEEK in the source). -/
def CMD_PEEK : Nat := 0xF1

/-- Serial command byte for POKE (CMD_POKE in the source). -/
def CMD_POKE : Nat := 0xF2

/-- Serial command byte for GET_PERF_LOG (CMD_GET_PERF_LOG, test variant only). -/
def CMD_GET_PERF_LOG : Nat := 0xF3

/-- Status byte for success (STATUS_SUCCESS). -/
def STATUS_SUCCESS : Nat := 0x00

/-- Status byte for an out-of-range address (STATUS_ADDRESS_RANGE_ERROR). -/
def STATUS_ADDRESS_RANGE_ERROR : Nat := 0x01

/-- Status byte for an invalid size (STATUS_SIZE_ERROR). -/
def STATUS_SIZE_ERROR : Nat := 0x02

/-- Target memory: a byte value for every address.  Models the AVR data
address space accessed through the `(uint8_t*)destraAddress` cast. -/
abbrev Mem := Nat → Nat

/-- Read `n` bytes starting at `addr`, exactly as the executor loop
`for (i = 0; i < destraSize; i++) Serial.write(ptr[i]);` visits them. -/
def readBytes (mem : Mem) : Nat → Nat → List Nat
  | _, 0 => []
  | addr, n + 1 => mem addr :: readBytes mem (addr + 1) n

/-- Write the byte list `vs` to consecutive addresses starting at `addr`,
exactly as the executor loop `for (i = 0; i < destraSize; i++)
ptr[i] = destraValueBuffer[i];` performs the stores. -/
def writeBytes : Mem → Nat → List Nat → Mem
  | mem, _, [] => mem
  | mem, addr, v :: vs => writeBytes (fun a => if a = addr then v else mem a) (addr + 1) vs

/-- Embedding of `processPeekRequest` (identical in both .ino files):
emit the response header `0xCA 0xFE CMD_PEEK`, then the status byte —
address range is validated first, then size — and on success the `size`
bytes read from memory.  Returns the emitted byte list. -/
def processPeekRequest (mem : Mem) (destraAddress destraSize : Nat) : List Nat :=
  [0xCA, 0xFE, CMD_PEEK] ++
    (if destraAddress < 0x100 ∨ 0x8FF < destraAddress then [STATUS_ADDRESS_RANGE_ERROR]
     else if destraSize = 0 ∨ 8 < destraSize then [STATUS_SIZE_ERROR]
     else STATUS_SUCCESS :: readBytes mem destraAddress destraSize)

/-- Embedding of `processPokeRequest` (identical in both .ino files):
same header and validation order as peek; on success the first
`destraSize` bytes of the 8-byte value buffer are written to memory and
the written range is re-read and emitted as a verification echo.
Returns the emitted byte list together with the updated memory. -/
def processPokeRequest (mem : Mem) (destraAddress destraSize : Nat)
    (destraValueBuffer : Nat → Nat) : List Nat × Mem :=
  if destraAddress < 0x100 ∨ 0x8FF < destraAddress then
    ([0xCA, 0xFE, CMD_POKE, STATUS_ADDRESS_RANGE_ERROR], mem)
  else if destraSize = 0 ∨ 8 < destraSize then
    ([0xCA, 0xFE, CMD_POKE, STATUS_SIZE_ERROR], mem)
  else
    let mem2 := writeBytes mem destraAddress ((List.range destraSize).map destraValueBuffer)
    ([0xCA, 0xFE, CMD_POKE, STATUS_SUCCESS] ++ readBytes mem2 destraAddress destraSize, mem2)

/-- One telemetry record (`struct PerfLog` in the test variant).  All
fields are bytes-on-the-wire naturals; `frameCounter` and
`commandProcessTime` are 32-bit on the target, the rest 16-bit. -/
structure PerfLog where
  frameCounter : Nat
  frameRate : Nat
  frameJitter : Nat
  commandSequence : Nat
  commandFrameCounterDelta : Nat
  commandProcessTime : Nat
deriving DecidableEq

/-- The telemetry ring buffer: the 100-slot array `perfBuffer` (modelled
as a total function on slot indices) and the write cursor `perfIndex`. -/
structure PerfState where
  perfBuffer : Nat → PerfLog
  perfIndex : Nat

/-- The zero record: C zero-initialises the global `perfBuffer` array. -/
def pZero : PerfLog := ⟨0, 0, 0, 0, 0, 0⟩

/-- Boot state of the telemetry recorder: zeroed buffer, cursor 0. -/
def perfInitial : PerfState := ⟨fun _ => pZero, 0⟩

/-- Embedding of `registerPerformanceStats`: append the entry at the
cursor and advance it modulo `PERF_BUFFER_SIZE` (100), but only when
`perfIndex < 99`; otherwise silently do nothing. -/
def registerPerformanceStats (s : PerfState) (e : PerfLog) : PerfState :=
  if s.perfIndex < 99 then
    { perfBuffer := fun i => if i = s.perfIndex then e else s.perfBuffer i,
      perfIndex := (s.perfIndex + 1) % 100 }
  else s

/-- The records currently stored in the buffer, in emission order: slots
`0 .. perfIndex - 1`, exactly the entries `processGetPerfLog` sends. -/
def perfEntries (s : PerfState) : List PerfLog :=
  (List.range s.perfIndex).map s.perfBuffer

/-- Little-endian serialization of the low `w` bytes of `n`, matching
`Serial.write((uint8_t*)&field, w)` on the little-endian AVR target. -/
def toLE (w n : Nat) : List Nat :=
  (List.range w).map (fun i => n / 256 ^ i % 256)

/-- Embedding of `sendPerfLogEntry`: the 16-byte wire form of a record. -/
def sendPerfLogEntry (e : PerfLog) : List Nat :=
  toLE 4 e.frameCounter ++ toLE 2 e.frameRate ++ toLE 2 e.frameJitter ++
    toLE 2 e.commandSequence ++ toLE 2 e.commandFrameCounterDelta ++
    toLE 4 e.commandProcessTime

/-- Embedding of `processGetPerfLog`: emit the header
`0xCA 0xFE 0xF3 0x00`, the entry count byte (`perfIndex`), and the
serialized entries; then reset the cursor to zero.  Returns the emitted
bytes and the updated telemetry state. -/
def processGetPerfLog (s : PerfState) : List Nat × PerfState :=
  ([0xCA, 0xFE, CMD_GET_PERF_LOG, STATUS_SUCCESS, s.perfIndex] ++
      ((perfEntries s).map sendPerfLogEntry).flatten,
    { s with perfIndex := 0 })

/-- Instrumentation values that the test variant's completion block
reads from globals owned by `loop()` and from the clock (`frameCounter`,
`frameRate`, `frameJitter`, the frame-counter delta and
`micros() - commandReceiveTime`).  They are abstracted as parameters of
the model because they derive from real time; the claims under study
only concern `commandSequence` and the cursor. -/
structure TestGlobals where
  frameCounter : Nat
  frameRate : Nat
  frameJitter : Nat
  commandFrameCounterDelta : Nat
  commandProcessTime : Nat

/-- All-zero instrumentation values. -/
def gZero : TestGlobals := ⟨0, 0, 0, 0, 0⟩

/-- The completion block at the end of the test variant's
`destraHandler`: increment the 16-bit `commandSequence` and register one
telemetry record carrying the incremented sequence number.  Returns the
new `commandSequence` and telemetry state. -/
def completeRequest (g : TestGlobals) (cs : Nat) (s : PerfState) : Nat × PerfState :=
  let cs2 := (cs + 1) % 65536
  (cs2, registerPerformanceStats s
    { frameCounter := g.frameCounter, frameRate := g.frameRate, frameJitter := g.frameJitter,
      commandSequence := cs2, commandFrameCounterDelta := g.commandFrameCounterDelta,
      commandProcessTime := g.commandProcessTime })

/-- `n` completed requests starting from boot state (`commandSequence`
0, empty buffer); request `k` runs under instrumentation values
`env k`.  Models `n` iterations of the completion block of
`destraHandler`. -/
def runRequests (env : Nat → TestGlobals) : Nat → Nat × PerfState
  | 0 => (0, perfInitial)
  | n + 1 => completeRequest (env n) (runRequests env n).1 (runRequests env n).2

/-- A full GET_PERF_LOG command: drain the buffer (`processGetPerfLog`),
then run the completion block for the drain command itself, exactly as
`destraHandler` does.  Returns the response bytes, the new
`commandSequence` and the new telemetry state. -/
def drainCommand (g : TestGlobals) (cs : Nat) (s : PerfState) :
    List Nat × Nat × PerfState :=
  let r := processGetPerfLog s
  let c := completeRequest g cs r.2
  (r.1, c.1, c.2)

/-- The packet framer's states (`enum DestraState`, identical in both
variants). -/
inductive DestraState
  | waitStartHigh
  | waitStartLow
  | waitCommand
  | waitAddressLow
  | waitAddressHigh
  | waitSize
  | waitValue
  | processRequest
deriving DecidableEq

open DestraState

/-- The framer's global variables (`destraState`, `destraCommand`,
`destraAddress`, `destraSize`, `addressLow`, `addressHigh`,
`destraValueBuffer`, `destraValueIndex`).  The 8-byte value buffer is
modelled as a total function on indices so that out-of-bounds writes
can be observed rather than trampling unrelated state. -/
structure ParserState where
  state : DestraState
  command : Nat
  address : Nat
  size : Nat
  addressLow : Nat
  addressHigh : Nat
  valueBuffer : Nat → Nat
  valueIndex : Nat

/-- Boot values of the framer globals (C zero-initialisation, state
`WAIT_START_HIGH`). -/
def destraInitial : ParserState :=
  ⟨waitStartHigh, 0, 0, 0, 0, 0, fun _ => 0, 0⟩

/-- One state transition of the sample framer
(`destraHandler` in destra_protocol.ino) on the incoming byte `b`:
returns the updated globals and the bytes echoed to the serial output
during this transition (this variant writes every accepted byte back). -/
def sampleStep (p : ParserState) (b : Nat) : ParserState × List Nat :=
  match p.state with
  | waitStartHigh =>
      if b = 0xCA then ({ p with state := waitStartLow }, [b]) else (p, [])
  | waitStartLow =>
      if b = 0xFE then ({ p with state := waitCommand }, [b])
      else ({ p with state := waitStartHigh }, [])
  | waitCommand =>
      if b = CMD_PEEK ∨ b = CMD_POKE then
        ({ p with command := b, state := waitAddressLow }, [b])
      else ({ p with command := b, state := waitStartHigh }, [])
  | waitAddressLow =>
      ({ p with addressLow := b, state := waitAddressHigh }, [b])
  | waitAddressHigh =>
      ({ p with
          addressHigh := b
          address := p.addressLow ||| (b <<< 8)
          state := waitSize }, [b])
  | waitSize =>
      if p.command = CMD_PEEK then
        ({ p with size := b, state := processRequest }, [b])
      else if p.command = CMD_POKE then
        ({ p with size := b, valueIndex := 0, state := waitValue }, [b])
      else ({ p with size := b, state := waitStartHigh }, [b])
  | waitValue =>
      let p2 := { p with
        valueBuffer := fun i => if i = p.valueIndex then b else p.valueBuffer i,
        valueIndex := p.valueIndex + 1 }
      if p.valueIndex + 1 ≥ p.size then ({ p2 with state := processRequest }, [b])
      else (p2, [b])
  | processRequest => (p, [])

/-- Dispatch of a completed request in the sample variant
(`processPeekRequest` / `processPokeRequest` calls at the end of
`destraHandler`): returns the response bytes and the updated memory. -/
def sampleProcess (p : ParserState) (mem : Mem) : List Nat × Mem :=
  if p.command = CMD_PEEK then (processPeekRequest mem p.address p.size, mem)
  else if p.command = CMD_POKE then processPokeRequest mem p.address p.size p.valueBuffer
  else ([], mem)

/-- The sample variant's handler run over a byte stream: one transition
per byte; when the machine reaches `PROCESS_REQUEST` the request is
dispatched and the state reset to `WAIT_START_HIGH` (as repeated
`destraHandler` calls do).  Returns the final globals, memory and the
complete serial output (echoes and responses, in emission order). -/
def sampleRun (p : ParserState) (mem : Mem) : List Nat → ParserState × Mem × List Nat
  | [] => (p, mem, [])
  | b :: rest =>
      let r := sampleStep p b
      if r.1.state = processRequest then
        let pr := sampleProcess r.1 mem
        let k := sampleRun { r.1 with state := waitStartHigh } pr.2 rest
        (k.1, k.2.1, r.2 ++ pr.1 ++ k.2.2)
      else
        let k := sampleRun r.1 mem rest
        (k.1, k.2.1, r.2 ++ k.2.2)

/-- Parser-globals evolution of the sample variant, one byte at a time
(the memory side effects of request dispatch do not touch the parser
globals; the dispatch only resets the state). -/
def sampleNext (p : ParserState) (b : Nat) : ParserState :=
  let p1 := (sampleStep p b).1
  if p1.state = processRequest then { p1 with state := waitStartHigh } else p1

/-- The indices into the 8-byte `destraValueBuffer` at which the sample
framer stores a byte while consuming the given stream: its WAIT_VALUE
case executes `destraValueBuffer[destraValueIndex] = inByte`
unconditionally, so every byte consumed in state WAIT_VALUE records a
write at the current `destraValueIndex`. -/
def sampleWriteTrace (p : ParserState) : List Nat → List Nat
  | [] => []
  | b :: rest =>
      (if p.state = waitValue then [p.valueIndex] else []) ++
        sampleWriteTrace (sampleNext p b) rest

/-- A complete POKE request that declares size 9 (greater than the
8-byte value buffer) followed by its 9 value bytes. -/
def c3Input : List Nat :=
  [0xCA, 0xFE, 0xF2, 0x00, 0x01, 0x09] ++ List.replicate 9 0x42

/-- Sequential stores into the value buffer starting at index `idx`,
as the WAIT_VALUE loop performs them. -/
def updBuf : (Nat → Nat) → Nat → List Nat → (Nat → Nat)
  | buf, _, [] => buf
  | buf, idx, v :: vs => updBuf (fun i => if i = idx then v else buf i) (idx + 1) vs

/-- The framer globals as they stand right after the WAIT_VALUE loop has
consumed the value byte list `vs` and the request has been dispatched:
buffer overwritten with `vs` from the old index on, index advanced to
`size`, state reset to WAIT_START_HIGH. -/
def pdOf (p : ParserState) (vs : List Nat) : ParserState :=
  { p with
      valueBuffer := updBuf p.valueBuffer p.valueIndex vs
      valueIndex := p.size
      state := waitStartHigh }

/-- One state transition of the test variant's framer (`destraHandler`
in destra_protocol_test/sample.ino): no echo of accepted bytes, a
GET_PERF_LOG branch in WAIT_COMMAND, and a bound check
`destraValueIndex < 8 && destraValueIndex < destraSize` before the
WAIT_VALUE store. -/
def testStep (p : ParserState) (b : Nat) : ParserState :=
  match p.state with
  | waitStartHigh => if b = 0xCA then { p with state := waitStartLow } else p
  | waitStartLow =>
      if b = 0xFE then { p with state := waitCommand }
      else { p with state := waitStartHigh }
  | waitCommand =>
      if b = CMD_PEEK ∨ b = CMD_POKE then { p with command := b, state := waitAddressLow }
      else if b = CMD_GET_PERF_LOG then { p with command := b, state := processRequest }
      else { p with command := b, state := waitStartHigh }
  | waitAddressLow => { p with addressLow := b, state := waitAddressHigh }
  | waitAddressHigh =>
      { p with addressHigh := b, address := p.addressLow ||| (b <<< 8), state := waitSize }
  | waitSize =>
      if p.command = CMD_PEEK then { p with size := b, state := processRequest }
      else if p.command = CMD_POKE then
        { p with size := b, valueIndex := 0, state := waitValue }
      else { p with size := b, state := waitStartHigh }
  | waitValue =>
      let p1 :=
        if p.valueIndex < 8 ∧ p.valueIndex < p.size then
          { p with
            valueBuffer := fun i => if i = p.valueIndex then b else p.valueBuffer i,
            valueIndex := p.valueIndex + 1 }
        else p
      if p1.valueIndex ≥ p1.size then { p1 with state := processRequest } else p1
  | processRequest => p

/-- Dispatch of a completed request in the test variant: PEEK, POKE or
GET_PERF_LOG.  Returns response bytes, updated memory and updated
telemetry state. -/
def testDispatch (p : ParserState) (mem : Mem) (perf : PerfState) :
    List Nat × Mem × PerfState :=
  if p.command = CMD_PEEK then (processPeekRequest mem p.address p.size, mem, perf)
  else if p.command = CMD_POKE then
    let r := processPokeRequest mem p.address p.size p.valueBuffer
    (r.1, r.2, perf)
  else if p.command = CMD_GET_PERF_LOG then
    let r := processGetPerfLog perf
    (r.1, mem, r.2)
  else ([], mem, perf)

/-- The whole embedded state of the test variant: framer globals,
target memory, `commandSequence` and the telemetry buffer. -/
structure TestSys where
  parser : ParserState
  mem : Mem
  commandSequence : Nat
  perf : PerfState

/-- The test variant's handler run over a byte stream: one transition
per byte; on reaching `PROCESS_REQUEST` the request is dispatched, the
command cleared, the state reset, and the completion block
(`commandSequence++; registerPerformanceStats()`) executed.  Returns
the final system state and the serial output. -/
def testRun (g : TestGlobals) (s : TestSys) : List Nat → TestSys × List Nat
  | [] => (s, [])
  | b :: rest =>
      let p1 := testStep s.parser b
      if p1.state = processRequest then
        let d := testDispatch p1 s.mem s.perf
        let c := completeRequest g s.commandSequence d.2.2
        let k := testRun g ⟨{ p1 with command := 0, state := waitStartHigh }, d.2.1, c.1, c.2⟩ rest
        (k.1, d.1 ++ k.2)
      else
        let k := testRun g ⟨p1, s.mem, s.commandSequence, s.perf⟩ rest
        (k.1, k.2)

theorem writeBytes_apply_of_lt (vs : List Nat) :
    ∀ (mem : Mem) (addr a : Nat), a < addr → writeBytes mem addr vs a = mem a := by
  induction vs with
  | nil => intro mem addr a _; rfl
  | cons v vs ih =>
    intro mem addr a h
    show writeBytes (fun x => if x = addr then v else mem x) (addr + 1) vs a = mem a
    rw [ih _ _ _ (by omega)]
    simp only [if_neg (by omega : ¬ a = addr)]

theorem readBytes_writeBytes (vs : List Nat) :
    ∀ (mem : Mem) (addr : Nat),
      readBytes (writeBytes mem addr vs) addr vs.length = vs := by
  induction vs with
  | nil => intro mem addr; rfl
  | cons v vs ih =>
    intro mem addr
    show readBytes (writeBytes (fun x => if x = addr then v else mem x) (addr + 1) vs)
        addr (vs.length + 1) = v :: vs
    rw [readBytes]
    rw [writeBytes_apply_of_lt vs _ _ _ (by omega)]
    simp [ih _ _]

theorem readBytes_length (mem : Mem) :
    ∀ (n addr : Nat), (readBytes mem addr n).length = n := by
  intro n
  induction n with
  | zero => intro addr; rfl
  | succ k ih => intro addr; simp [readBytes, ih]

/-- C1: for every in-window `(address, size)` with `0x0100 ≤ address`,
`address + size − 1 ≤ 0x08FF` and `1 ≤ size ≤ 8`, and every value held
in the 8-byte buffer, a poke succeeds (status `0x00`, verification echo
equal to the written value) and a peek of the same range on the updated
memory, with no intervening operation, returns exactly the poked
bytes. -/
theorem destra_c1_roundtrip (mem : Mem) (address size : Nat) (destraValueBuffer : Nat → Nat)
    (h1 : 0x100 ≤ address) (h2 : address + size - 1 ≤ 0x8FF)
    (h3 : 1 ≤ size) (h4 : size ≤ 8) :
    (processPokeRequest mem address size destraValueBuffer).1
        = [0xCA, 0xFE, 0xF2, 0x00] ++ (List.range size).map destraValueBuffer
    ∧ processPeekRequest (processPokeRequest mem address size destraValueBuffer).2 address size
        = [0xCA, 0xFE, 0xF1, 0x00] ++ (List.range size).map destraValueBuffer := by
  have haddr : ¬ (address < 0x100 ∨ 0x8FF < address) := by omega
  have hsize : ¬ (size = 0 ∨ 8 < size) := by omega
  have hlen : ((List.range size).map destraValueBuffer).length = size := by simp
  have hround :
      readBytes (writeBytes mem address ((List.range size).map destraValueBuffer)) address size
        = (List.range size).map destraValueBuffer := by
    have h := readBytes_writeBytes ((List.range size).map destraValueBuffer) mem address
    rwa [hlen] at h
  unfold processPokeRequest processPeekRequest
  rw [if_neg haddr, if_neg hsize]
  simp only [if_neg haddr, if_neg hsize]
  constructor
  case _ => simp [CMD_POKE, STATUS_SUCCESS, hround]
  case _ => simp [CMD_PEEK, STATUS_SUCCESS, hround]

/-- Witness for C1 at a concrete input: address `0x0100`, size `1`,
value buffer holding `7`. -/
theorem destra_c1_roundtrip_witness :
    (processPokeRequest (fun _ => 0) 0x100 1 (fun _ => 7)).1
        = [0xCA, 0xFE, 0xF2, 0x00] ++ (List.range 1).map (fun _ => 7)
    ∧ processPeekRequest (processPokeRequest (fun _ => 0) 0x100 1 (fun _ => 7)).2 0x100 1
        = [0xCA, 0xFE, 0xF1, 0x00] ++ (List.range 1).map (fun _ => 7) :=
  destra_c1_roundtrip (fun _ => 0) 0x100 1 (fun _ => 7)
    (by decide) (by decide) (by decide) (by decide)

/-- C2: for every address outside `0x0100 .. 0x08FF`, and every size and
value, both peek and poke answer with status `0x01`
(ADDRESS_RANGE_ERROR), the responses carry no payload (they are exactly
the 4 header bytes), and the poke leaves memory unchanged. -/
theorem destra_c2_address_range_error (mem : Mem) (address size : Nat)
    (destraValueBuffer : Nat → Nat)
    (h : address < 0x100 ∨ 0x8FF < address) :
    processPeekRequest mem address size = [0xCA, 0xFE, 0xF1, 0x01]
    ∧ (processPokeRequest mem address size destraValueBuffer).1 = [0xCA, 0xFE, 0xF2, 0x01]
    ∧ (processPokeRequest mem address size destraValueBuffer).2 = mem := by
  unfold processPeekRequest processPokeRequest
  rw [if_pos h]
  simp [if_pos h, CMD_PEEK, CMD_POKE, STATUS_ADDRESS_RANGE_ERROR]

/-- Witness for C2 at address `0` (below the window), size `3`. -/
theorem destra_c2_address_range_error_witness :
    processPeekRequest (fun _ => 0) 0 3 = [0xCA, 0xFE, 0xF1, 0x01]
    ∧ (processPokeRequest (fun _ => 0) 0 3 (fun _ => 0)).1 = [0xCA, 0xFE, 0xF2, 0x01]
    ∧ (processPokeRequest (fun _ => 0) 0 3 (fun _ => 0)).2 = (fun _ => 0) :=
  destra_c2_address_range_error (fun _ => 0) 0 3 (fun _ => 0) (by decide)

/-- C6 counterexample: at address `0` with size `0` the peek response
status byte is `0x01` (ADDRESS_RANGE_ERROR), not `0x02` (SIZE_ERROR):
the executor validates the address before the size, so the claim "for
every address and every size with size == 0 or size > 8 both operations
return SIZE_ERROR" fails at this input. -/
theorem destra_c6_counterexample :
    processPeekRequest (fun _ => 0) 0 0 = [0xCA, 0xFE, 0xF1, 0x01]
    ∧ (0x01 : Nat) ≠ 0x02 := by decide

/-- C6 amended: for every address inside the valid window
`0x0100 .. 0x08FF` and every size with `size = 0` or `size > 8`, both
peek and poke answer with status `0x02` (SIZE_ERROR). -/
theorem destra_c6_size_error (mem : Mem) (address size : Nat)
    (destraValueBuffer : Nat → Nat)
    (h1 : 0x100 ≤ address) (h2 : address ≤ 0x8FF)
    (h3 : size = 0 ∨ 8 < size) :
    processPeekRequest mem address size = [0xCA, 0xFE, 0xF1, 0x02]
    ∧ (processPokeRequest mem address size destraValueBuffer).1 = [0xCA, 0xFE, 0xF2, 0x02]
    ∧ (processPokeRequest mem address size destraValueBuffer).2 = mem := by
  have haddr : ¬ (address < 0x100 ∨ 0x8FF < address) := by omega
  unfold processPeekRequest processPokeRequest
  rw [if_neg haddr, if_pos h3]
  simp [if_neg haddr, if_pos h3, CMD_PEEK, CMD_POKE, STATUS_SIZE_ERROR]

/-- Witness for the amended C6 at address `0x0100`, size `0`. -/
theorem destra_c6_size_error_witness :
    processPeekRequest (fun _ => 0) 0x100 0 = [0xCA, 0xFE, 0xF1, 0x02]
    ∧ (processPokeRequest (fun _ => 0) 0x100 0 (fun _ => 0)).1 = [0xCA, 0xFE, 0xF2, 0x02]
    ∧ (processPokeRequest (fun _ => 0) 0x100 0 (fun _ => 0)).2 = (fun _ => 0) :=
  destra_c6_size_error (fun _ => 0) 0x100 0 (fun _ => 0)
    (by decide) (by decide) (Or.inl rfl)

/-- C7: every peek or poke response has the fixed layout
`0xCA 0xFE`, echoed command byte, status byte, then a payload that is
present (with exactly `size` bytes) only when the status is SUCCESS and
absent on either error — so error responses are exactly 4 bytes and
successful responses exactly `4 + size` bytes. -/
theorem destra_c7_response_layout (mem : Mem) (address size : Nat)
    (destraValueBuffer : Nat → Nat) :
    (∃ status payload,
        processPeekRequest mem address size = [0xCA, 0xFE, 0xF1, status] ++ payload
        ∧ ((status = 0x00 ∧ payload.length = size) ∨ (status ≠ 0x00 ∧ payload = [])))
    ∧ (∃ status payload,
        (processPokeRequest mem address size destraValueBuffer).1
            = [0xCA, 0xFE, 0xF2, status] ++ payload
        ∧ ((status = 0x00 ∧ payload.length = size) ∨ (status ≠ 0x00 ∧ payload = []))) := by
  constructor
  case _ =>
    by_cases ha : address < 0x100 ∨ 0x8FF < address
    case pos =>
      exact ⟨0x01, [], by simp [processPeekRequest, ha, CMD_PEEK, STATUS_ADDRESS_RANGE_ERROR],
        Or.inr ⟨by decide, rfl⟩⟩
    case neg =>
      by_cases hs : size = 0 ∨ 8 < size
      case pos =>
        exact ⟨0x02, [], by simp [processPeekRequest, ha, hs, CMD_PEEK, STATUS_SIZE_ERROR],
          Or.inr ⟨by decide, rfl⟩⟩
      case neg =>
        exact ⟨0x00, readBytes mem address size,
          by simp [processPeekRequest, ha, hs, CMD_PEEK, STATUS_SUCCESS],
          Or.inl ⟨rfl, readBytes_length mem size address⟩⟩
  case _ =>
    by_cases ha : address < 0x100 ∨ 0x8FF < address
    case pos =>
      exact ⟨0x01, [], by simp [processPokeRequest, ha, CMD_POKE, STATUS_ADDRESS_RANGE_ERROR],
        Or.inr ⟨by decide, rfl⟩⟩
    case neg =>
      by_cases hs : size = 0 ∨ 8 < size
      case pos =>
        exact ⟨0x02, [], by simp [processPokeRequest, ha, hs, CMD_POKE, STATUS_SIZE_ERROR],
          Or.inr ⟨by decide, rfl⟩⟩
      case neg =>
        refine ⟨0x00,
          readBytes (writeBytes mem address ((List.range size).map destraValueBuffer))
            address size,
          by simp [processPokeRequest, ha, hs, CMD_POKE, STATUS_SUCCESS],
          Or.inl ⟨rfl, readBytes_length _ size address⟩⟩

theorem runRequests_spec (env : Nat → TestGlobals) (n : Nat) (hn : n ≤ 99) :
    (runRequests env n).1 = n ∧ (runRequests env n).2.perfIndex = n ∧
      ∀ i, i < n → ((runRequests env n).2.perfBuffer i).commandSequence = i + 1 := by
  induction n with
  | zero => exact ⟨rfl, rfl, fun i h => absurd h (by omega)⟩
  | succ k ih =>
    obtain ⟨h1, h2, h3⟩ := ih (by omega)
    have hcs : (k + 1) % 65536 = k + 1 := Nat.mod_eq_of_lt (by omega)
    have hidx : (k + 1) % 100 = k + 1 := Nat.mod_eq_of_lt (by omega)
    refine ⟨?_, ?_, ?_⟩
    case _ =>
      simp only [runRequests, completeRequest, h1]
      exact hcs
    case _ =>
      simp only [runRequests, completeRequest, registerPerformanceStats, h1, h2]
      rw [if_pos (by omega)]
      exact hidx
    case _ =>
      intro i hi
      simp only [runRequests, completeRequest, registerPerformanceStats, h1, h2]
      rw [if_pos (by omega)]
      by_cases hik : i = k
      case pos => simp [hik, hcs]
      case neg =>
        simp only [if_neg hik]
        exact h3 i (by omega)

set_option maxRecDepth 40000

/-- C4 counterexample: with `N = 100` completed requests from boot state
(`N ≤ 100` as the claim allows), the GET_PERF_LOG drain finds only 99
records — the 100th append was dropped by the `perfIndex < 99` guard —
and a second drain immediately afterwards finds 1 record, not 0,
because the handler registers a telemetry entry for the GET_PERF_LOG
command itself after the drain reset the cursor. -/
theorem destra_c4_counterexample :
    ((perfEntries (runRequests (fun _ => gZero) 100).2).length = 99 ∧ (99 : Nat) ≠ 100)
    ∧ ((perfEntries
          (drainCommand gZero (runRequests (fun _ => gZero) 100).1
            (runRequests (fun _ => gZero) 100).2).2.2).length = 1 ∧ (1 : Nat) ≠ 0) := by
  decide

/-- C4 amended: for every `N ≤ 99`, `N` completed requests from boot
state followed by GET_PERF_LOG produce a response carrying exactly `N`
telemetry records whose `commandSequence` fields are strictly
increasing, and a second GET_PERF_LOG immediately afterwards finds
exactly one record (the telemetry entry registered for the first
GET_PERF_LOG command itself), not zero. -/
theorem destra_c4_telemetry (N : Nat) (hN : N ≤ 99) (env : Nat → TestGlobals)
    (g : TestGlobals) :
    (processGetPerfLog (runRequests env N).2).1
        = [0xCA, 0xFE, 0xF3, 0x00, N] ++
            ((perfEntries (runRequests env N).2).map sendPerfLogEntry).flatten
    ∧ (perfEntries (runRequests env N).2).length = N
    ∧ List.Pairwise (fun a b => a.commandSequence < b.commandSequence)
        (perfEntries (runRequests env N).2)
    ∧ (perfEntries
          (drainCommand g (runRequests env N).1 (runRequests env N).2).2.2).length = 1 := by
  obtain ⟨h1, h2, h3⟩ := runRequests_spec env N hN
  refine ⟨?_, ?_, ?_, ?_⟩
  case _ =>
    simp [processGetPerfLog, CMD_GET_PERF_LOG, STATUS_SUCCESS, h2]
  case _ =>
    simp [perfEntries, h2]
  case _ =>
    rw [List.pairwise_iff_getElem]
    intro i j hi hj hij
    have hleni : i < N := by simpa [perfEntries, h2] using hi
    have hlenj : j < N := by simpa [perfEntries, h2] using hj
    simp only [perfEntries, List.getElem_map, List.getElem_range]
    rw [h3 _ (by simpa [h2] using hleni), h3 _ (by simpa [h2] using hlenj)]
    omega
  case _ =>
    simp [drainCommand, processGetPerfLog, completeRequest, registerPerformanceStats,
      perfEntries]

/-- Witness for the amended C4 at `N = 2` with all-zero instrumentation
values. -/
theorem destra_c4_telemetry_witness :
    (processGetPerfLog (runRequests (fun _ => gZero) 2).2).1
        = [0xCA, 0xFE, 0xF3, 0x00, 2] ++
            ((perfEntries (runRequests (fun _ => gZero) 2).2).map sendPerfLogEntry).flatten
    ∧ (perfEntries (runRequests (fun _ => gZero) 2).2).length = 2
    ∧ List.Pairwise (fun a b => a.commandSequence < b.commandSequence)
        (perfEntries (runRequests (fun _ => gZero) 2).2)
    ∧ (perfEntries
          (drainCommand gZero (runRequests (fun _ => gZero) 2).1
            (runRequests (fun _ => gZero) 2).2).2.2).length = 1 :=
  destra_c4_telemetry 2 (by decide) (fun _ => gZero) gZero

/-- C5: the ring-buffer invariant.  An append never pushes the cursor
past 100 (in fact the `perfIndex < 99` guard keeps it at 99 at most);
once the cursor has reached the guarded bound 99, a further append
leaves the state — cursor and every stored entry — completely
unchanged, so no existing entry is ever overwritten; and a
GET_PERF_LOG drain resets the entry count to zero. -/
theorem destra_c5_ring_invariant :
    (∀ (s : PerfState) (e : PerfLog),
        s.perfIndex ≤ 100 → (registerPerformanceStats s e).perfIndex ≤ 100)
    ∧ (∀ (s : PerfState) (e : PerfLog),
        99 ≤ s.perfIndex → registerPerformanceStats s e = s)
    ∧ (∀ s : PerfState, (processGetPerfLog s).2.perfIndex = 0) := by
  refine ⟨?_, ?_, ?_⟩
  case _ =>
    intro s e h
    unfold registerPerformanceStats
    by_cases hg : s.perfIndex < 99
    case pos =>
      rw [if_pos hg]
      dsimp only
      have := Nat.mod_lt (s.perfIndex + 1) (show 0 < 100 by omega)
      omega
    case neg =>
      rw [if_neg hg]
      exact h
  case _ =>
    intro s e h
    unfold registerPerformanceStats
    rw [if_neg (by omega)]
  case _ =>
    intro s
    rfl

/-- Witness for C5 at concrete telemetry states (cursor 100, 99 and 7). -/
theorem destra_c5_ring_invariant_witness :
    (registerPerformanceStats ⟨fun _ => pZero, 100⟩ pZero).perfIndex ≤ 100
    ∧ registerPerformanceStats ⟨fun _ => pZero, 99⟩ pZero = ⟨fun _ => pZero, 99⟩
    ∧ (processGetPerfLog ⟨fun _ => pZero, 7⟩).2.perfIndex = 0 :=
  ⟨destra_c5_ring_invariant.1 ⟨fun _ => pZero, 100⟩ pZero (by decide),
    destra_c5_ring_invariant.2.1 ⟨fun _ => pZero, 99⟩ pZero (by decide),
    destra_c5_ring_invariant.2.2 ⟨fun _ => pZero, 7⟩⟩

/-- C3 (evaluation at the failing input): consuming a POKE request that
declares size 9, the sample framer of destra_protocol.ino performs a
value-buffer store at index 8 — past the fixed 8-byte
`destraValueBuffer` — because its WAIT_VALUE case stores at
`destraValueIndex` without any bound check; so it is false that every
write index in the trace stays below the buffer capacity 8. -/
theorem destra_c3_overflow :
    ¬ (∀ i ∈ sampleWriteTrace destraInitial c3Input, i < 8) := by decide

/-- C8 counterexample: a spurious `0xCA` byte injected before a valid
PEEK request changes the outcome — the sample framer consumes the
request's real `0xCA` in WAIT_START_LOW, resynchronises to
WAIT_START_HIGH, discards the rest of the request and never answers, so
the serial output differs from the run without the spurious byte. -/
theorem destra_c8_counterexample :
    (sampleRun destraInitial (fun _ => 0)
        (0xCA :: [0xCA, 0xFE, 0xF1, 0x00, 0x01, 0x01])).2.2
      ≠ (sampleRun destraInitial (fun _ => 0) [0xCA, 0xFE, 0xF1, 0x00, 0x01, 0x01]).2.2 := by
  decide

/-- C8 amended: injecting a spurious byte other than `0xCA` (such as the
spec's example `0x00`) before any byte stream, starting from the
initial parser state WAIT_START_HIGH, leaves the entire outcome — final
parser state, memory and serial output — unchanged, since
WAIT_START_HIGH discards every byte that is not `0xCA` without any
state change or output. -/
theorem destra_c8_resync (b : Nat) (hb : b ≠ 0xCA) (mem : Mem) (input : List Nat) :
    sampleRun destraInitial mem (b :: input) = sampleRun destraInitial mem input := by
  simp [sampleRun, sampleStep, destraInitial, hb]

/-- Witness for the amended C8: a spurious `0x00` before a valid PEEK
request does not change the outcome. -/
theorem destra_c8_resync_witness :
    sampleRun destraInitial (fun _ => 0) (0x00 :: [0xCA, 0xFE, 0xF1, 0x00, 0x01, 0x01])
      = sampleRun destraInitial (fun _ => 0) [0xCA, 0xFE, 0xF1, 0x00, 0x01, 0x01] :=
  destra_c8_resync 0x00 (by decide) (fun _ => 0) [0xCA, 0xFE, 0xF1, 0x00, 0x01, 0x01]

/-- C9: in the test variant, the command byte `0xF3` (GET_PERF_LOG)
received in WAIT_COMMAND goes straight to PROCESS_REQUEST, and feeding
just `0xCA 0xFE 0xF3` from boot state produces the complete
GET_PERF_LOG response (here with zero records) with no address, size or
value bytes required, returning the framer to WAIT_START_HIGH. -/
theorem destra_c9_get_perf_log (g : TestGlobals) (mem : Mem) :
    (testRun g ⟨destraInitial, mem, 0, perfInitial⟩ [0xCA, 0xFE, 0xF3]).2
        = [0xCA, 0xFE, 0xF3, 0x00, 0x00]
    ∧ (testRun g ⟨destraInitial, mem, 0, perfInitial⟩ [0xCA, 0xFE, 0xF3]).1.parser.state
        = waitStartHigh
    ∧ ∀ p : ParserState, p.state = waitCommand → (testStep p 0xF3).state = processRequest := by
  refine ⟨?_, ?_, ?_⟩
  case _ =>
    simp [testRun, testStep, testDispatch, processGetPerfLog, destraInitial, perfInitial,
      perfEntries, CMD_PEEK, CMD_POKE, CMD_GET_PERF_LOG, STATUS_SUCCESS]
  case _ =>
    simp [testRun, testStep, testDispatch, processGetPerfLog, destraInitial, perfInitial,
      perfEntries, CMD_PEEK, CMD_POKE, CMD_GET_PERF_LOG, STATUS_SUCCESS]
  case _ =>
    intro p hp
    simp [testStep, hp, CMD_PEEK, CMD_POKE, CMD_GET_PERF_LOG]

/-- Witness for C9 at concrete instrumentation values and memory. -/
theorem destra_c9_get_perf_log_witness :
    (testRun gZero ⟨destraInitial, fun _ => 0, 0, perfInitial⟩ [0xCA, 0xFE, 0xF3]).2
        = [0xCA, 0xFE, 0xF3, 0x00, 0x00]
    ∧ (testStep { destraInitial with state := waitCommand } 0xF3).state = processRequest :=
  ⟨(destra_c9_get_perf_log gZero (fun _ => 0)).1,
    (destra_c9_get_perf_log gZero (fun _ => 0)).2.2 _ rfl⟩

theorem updBuf_apply (vs : List Nat) :
    ∀ (buf : Nat → Nat) (idx j : Nat),
      updBuf buf idx vs j =
        if idx ≤ j ∧ j < idx + vs.length then vs.getD (j - idx) 0 else buf j := by
  induction vs with
  | nil =>
    intro buf idx j
    show buf j = if idx ≤ j ∧ j < idx + ([] : List Nat).length then _ else buf j
    rw [if_neg (by simp only [List.length_nil]; omega)]
  | cons v vs ih =>
    intro buf idx j
    show updBuf (fun i => if i = idx then v else buf i) (idx + 1) vs j = _
    rw [ih]
    by_cases h1 : idx + 1 ≤ j ∧ j < idx + 1 + vs.length
    case pos =>
      rw [if_pos h1, if_pos (by simp only [List.length_cons]; omega)]
      have hj : j - idx = (j - (idx + 1)) + 1 := by omega
      rw [hj, List.getD_cons_succ]
    case neg =>
      rw [if_neg h1]
      by_cases h2 : j = idx
      case pos =>
        subst h2
        rw [if_pos rfl, if_pos (by simp only [List.length_cons]; omega)]
        simp
      case neg =>
        rw [if_neg h2, if_neg (by simp only [List.length_cons]; omega)]

theorem updBuf_zero (vs : List Nat) :
    updBuf (fun _ => 0) 0 vs = fun j => vs.getD j 0 := by
  funext j
  rw [updBuf_apply]
  by_cases h : j < vs.length
  case pos =>
    rw [if_pos (by omega)]
    simp
  case neg =>
    rw [if_neg (by omega), List.getD_eq_default _ _ (by omega)]

theorem sampleRun_waitValue (vs : List Nat) :
    ∀ (p : ParserState) (mem : Mem),
      p.state = waitValue → p.valueIndex + vs.length = p.size → vs ≠ [] →
      sampleRun p mem vs =
        (pdOf p vs, (sampleProcess (pdOf p vs) mem).2,
          vs ++ (sampleProcess (pdOf p vs) mem).1) := by
  induction vs with
  | nil => intro p mem _ _ hne; exact absurd rfl hne
  | cons v vs ih =>
    intro p mem hst hlen _
    obtain ⟨st, cmd, addr, sz, aL, aH, buf, vi⟩ := p
    simp only at hst
    subst hst
    simp only [List.length_cons] at hlen
    by_cases hvs : vs = []
    case pos =>
      subst hvs
      have hsz : sz = vi + 1 := by simp at hlen; omega
      subst hsz
      simp [sampleRun, sampleStep, sampleProcess, updBuf, pdOf]
    case neg =>
      have hlt : ¬ (vi + 1 ≥ sz) := by
        have : vs.length ≠ 0 := by
          intro h
          exact hvs (List.eq_nil_of_length_eq_zero h)
        omega
      simp only [sampleRun, sampleStep]
      rw [if_neg hlt]
      simp only []
      rw [if_neg (by simp)]
      have ihr := ih ⟨waitValue, cmd, addr, sz, aL, aH,
          fun i => if i = vi then v else buf i, vi + 1⟩ mem rfl (by simp; omega) hvs
      simp only at ihr
      rw [ihr]
      simp [updBuf, sampleProcess, pdOf]

/-- C10: the sample framer of destra_protocol.ino echoes every byte it
accepts back to the serial output — magic bytes, command byte, both
address bytes, size byte and each POKE value byte — so for a PEEK
request its entire serial output is the request bytes followed by the
framed response, and likewise for a POKE request with its value bytes
(the executor then reads the value buffer the WAIT_VALUE loop filled,
which holds exactly the received value bytes). -/
theorem destra_c10_echo (mem : Mem) (aL aH sz : Nat) (vs : List Nat)
    (hlen : vs.length = sz) (hsz : 1 ≤ sz) :
    (sampleRun destraInitial mem [0xCA, 0xFE, 0xF1, aL, aH, sz]).2.2
        = [0xCA, 0xFE, 0xF1, aL, aH, sz] ++ processPeekRequest mem (aL ||| (aH <<< 8)) sz
    ∧ (sampleRun destraInitial mem ([0xCA, 0xFE, 0xF2, aL, aH, sz] ++ vs)).2.2
        = ([0xCA, 0xFE, 0xF2, aL, aH, sz] ++ vs)
            ++ (processPokeRequest mem (aL ||| (aH <<< 8)) sz (fun i => vs.getD i 0)).1 := by
  constructor
  case _ =>
    simp [sampleRun, sampleStep, sampleProcess, destraInitial, CMD_PEEK, CMD_POKE]
  case _ =>
    have hne : vs ≠ [] := by
      intro h
      rw [h] at hlen
      simp at hlen
      omega
    have h6 : sampleRun destraInitial mem ([0xCA, 0xFE, 0xF2, aL, aH, sz] ++ vs)
        = (let k := sampleRun
            ⟨waitValue, 0xF2, aL ||| (aH <<< 8), sz, aL, aH, fun _ => 0, 0⟩ mem vs
           (k.1, k.2.1, [0xCA, 0xFE, 0xF2, aL, aH, sz] ++ k.2.2)) := by
      simp [sampleRun, sampleStep, destraInitial, CMD_PEEK, CMD_POKE]
    rw [h6]
    rw [sampleRun_waitValue vs ⟨waitValue, 0xF2, aL ||| (aH <<< 8), sz, aL, aH, fun _ => 0, 0⟩
      mem rfl (by simpa using hlen) hne]
    simp [pdOf, sampleProcess, updBuf_zero, CMD_PEEK, CMD_POKE]

/-- Witness for C10: PEEK and POKE requests at address `0x0104`
(little-endian bytes `04 01`), size 2, POKE value bytes `5 6`. -/
theorem destra_c10_echo_witness :
    (sampleRun destraInitial (fun _ => 0) [0xCA, 0xFE, 0xF1, 0x04, 0x01, 0x02]).2.2
        = [0xCA, 0xFE, 0xF1, 0x04, 0x01, 0x02]
            ++ processPeekRequest (fun _ => 0) (0x04 ||| (0x01 <<< 8)) 0x02
    ∧ (sampleRun destraInitial (fun _ => 0) ([0xCA, 0xFE, 0xF2, 0x04, 0x01, 0x02] ++ [5, 6])).2.2
        = ([0xCA, 0xFE, 0xF2, 0x04, 0x01, 0x02] ++ [5, 6])
            ++ (processPokeRequest (fun _ => 0) (0x04 ||| (0x01 <<< 8)) 0x02
                (fun i => [5, 6].getD i 0)).1 :=
  destra_c10_echo (fun _ => 0) 0x04 0x01 0x02 [5, 6] (by decide) (by decide)
